import Mathlib

/-!
Verification of the SonarRemovalsAPICode repository.

This file shallowly embeds the data model and the operations of the
removal-list pipeline:

* the cell values flowing through the pandas tables (modelled by a small
  inductive type with Python truthiness),
* the two response flatteners, from flatten_inventory_items.py and
  flatten_accounts.py (rows are association lists, mirroring Python dicts,
  so schema facts are provable rather than assumed),
* the serviceable-address classifier filterServicableAddressesWithoutActiveAccounts,
* the reconciliation engine combine_removal_lists, with its in-place
  normalization of the Account_id columns made explicit as returned
  post-call table states, and its print diagnostics modelled as a log list.
-/

namespace SonarRemovals

/-- A Python value stored in a table cell: None, a string, an integer or a
boolean.  NaN does not arise because every cell produced by the flatteners is
either a response scalar or the Python object None. -/
inductive Value where
  | null : Value
  | str (s : String) : Value
  | int (n : Int) : Value
  | bool (b : Bool) : Value
deriving DecidableEq, Repr

/-- Python truthiness of a cell value, as used by conditions such as
the account-name fallback in combine_removal_lists. -/
def Value.truthy : Value → Bool
  | .null => false
  | .str s => !s.isEmpty
  | .int n => n != 0
  | .bool b => b

/-- pandas pd.notna on a cell value: false exactly on the missing value. -/
def Value.notna : Value → Bool
  | .null => false
  | _ => true

/-- Python str() of a cell value. -/
def pyStr : Value → String
  | .null => "None"
  | .str s => s
  | .int n => toString n
  | .bool b => if b then "True" else "False"

/-- Python `a or b` on cell values: the first operand when truthy, else the
second. -/
def pyOr (a b : Value) : Value := if a.truthy then a else b

/-- Python str.strip(): remove leading and trailing whitespace. -/
def pyStrip (s : String) : String :=
  String.mk (((s.toList.dropWhile Char.isWhitespace).reverse.dropWhile
    Char.isWhitespace).reverse)

/-- Splitting a character list at every comma, accumulating the current
piece in reverse. -/
def splitCommaAux : List Char → List Char → List (List Char)
  | [], acc => [acc.reverse]
  | c :: rest, acc =>
    if c = ',' then acc.reverse :: splitCommaAux rest []
    else splitCommaAux rest (c :: acc)

/-- Python s.split(','). -/
def pySplitComma (s : String) : List String :=
  (splitCommaAux s.toList []).map String.mk

/-- Python str.lower() (ASCII case mapping, which covers every observed
type name). -/
def pyLower (s : String) : String :=
  String.mk (s.toList.map Char.toLower)

/-- Lexicographic comparison of character lists by code point, the order
Python sorted() uses on strings. -/
def charListLe : List Char → List Char → Bool
  | [], _ => true
  | _ :: _, [] => false
  | a :: as_, b :: bs =>
    if a < b then true else if a = b then charListLe as_ bs else false

/-- Python string comparison a <= b. -/
def strLe (a b : String) : Bool := charListLe a.toList b.toList

/-- A row is a Python dict in insertion order: an association list from
column names to values. -/
abbrev Row := List (String × Value)

/-- A table is a list of rows (a pandas DataFrame built from such dicts). -/
abbrev Table := List Row

/-- Reading a column from a row; a missing key reads as None, matching
Series.get / dict.get. -/
def rowGet (r : Row) (k : String) : Value :=
  match r.find? (fun p => p.1 == k) with
  | some p => p.2
  | none => Value.null

/-- Reading a column with an explicit default, matching .get(key, default). -/
def rowGetD (r : Row) (k : String) (d : Value) : Value :=
  match r.find? (fun p => p.1 == k) with
  | some p => p.2
  | none => d

/-- Python `key in row` membership test. -/
def rowHas (r : Row) (k : String) : Bool :=
  r.any (fun p => p.1 == k)

/-- Column membership of a DataFrame: the union of the keys of its rows. -/
def hasCol (t : Table) (k : String) : Bool :=
  t.any (fun r => rowHas r k)

/-- One cell of astype(string).str.strip(): the missing value stays missing,
any other value becomes its stripped string representation. -/
def normVal : Value → Value
  | .null => .null
  | v => .str (pyStrip (pyStr v))

/-- In-place normalization of the Account_id column of one row. -/
def normalizeRow (r : Row) : Row :=
  r.map (fun p => if p.1 == "Account_id" then (p.1, normVal p.2) else p)

/-- The effect of
df[..Account_id..] = df[..Account_id..].astype(string).str.strip()
guarded by the column-existence test in combine_removal_lists. -/
def normalizeAccountId (t : Table) : Table :=
  if hasCol t "Account_id" then t.map normalizeRow else t

/-! ### Inventory flattener (flatten_inventory_items.py) -/

/-- The aliased Account selection inside the inventory query response. -/
structure AccountObj where
  name : Value
  archived_at : Value
  archived_by_user_id : Value
  account_status_id : Value
  account_type_id : Value
  is_delinquent : Value
  is_eligible_for_archive : Value
  company_id : Value
  activation_date : Value
  next_bill_date : Value
  parent_account_id : Value
  geopoint : Value
  data_usage_percentage : Value
  next_recurring_charge_amount : Value
  disconnection_reason_id : Value
  id : Value
  sonar_unique_id : Value
  created_at : Value
  updated_at : Value
deriving DecidableEq, Repr

/-- The aliased Address selection (the polymorphic inventoryitemable resolved
to Address), with its optional nested addressable Account. -/
structure AddressObj where
  address_status_id : Value
  line1 : Value
  line2 : Value
  city : Value
  county : Value
  subdivision : Value
  zip : Value
  country : Value
  latitude : Value
  longitude : Value
  fips : Value
  type : Value
  addressable_type : Value
  addressable_id : Value
  serviceable : Value
  is_anchor : Value
  anchor_address_id : Value
  billing_default_id : Value
  attainable_download_speed : Value
  attainable_upload_speed : Value
  timezone : Value
  id : Value
  sonar_unique_id : Value
  created_at : Value
  updated_at : Value
  addressable : Option AccountObj
deriving DecidableEq, Repr

/-- The deployment_type selection. -/
structure DeploymentTypeObj where
  name : Value
  inventory_model_id : Value
  network_monitoring_template_id : Value
  id : Value
deriving DecidableEq, Repr

/-- The inventory_model selection (only the scalar fields the flattener
reads). -/
structure InventoryModelObj where
  enabled : Value
  manufacturer_id : Value
  inventory_model_category_id : Value
  icon : Value
  model_name : Value
  name : Value
deriving DecidableEq, Repr

/-- The nested inventory_model_field selection inside a field-data entry. -/
structure InventoryModelFieldObj where
  inventory_model_id : Value
  name : Value
  type : Value
deriving DecidableEq, Repr

/-- One ip_assignments entry (scalar fields read by the flattener). -/
structure IpAssignmentObj where
  account_service_id : Value
  subnet : Value
  soft : Value
  reference : Value
  description : Value
  subnet_id : Value
  ip_pool_id : Value
  ipassignmentable_type : Value
  ipassignmentable_id : Value
  id : Value
  sonar_unique_id : Value
  created_at : Value
  updated_at : Value
deriving DecidableEq, Repr

/-- One inventory_model_field_data entry. -/
structure FieldDataEntry where
  inventory_model_field_id : Value
  inventory_item_id : Value
  value : Value
  id : Value
  inventory_model_field : Option InventoryModelFieldObj
  ip_assignments : List IpAssignmentObj
deriving DecidableEq, Repr

/-- One inventory-item entity of the response; absent optional objects are
none, absent entity arrays are the empty list (the .get default chain). -/
structure InvEntity where
  inventoryitemable_type : Value
  inventoryitemable_id : Value
  deployment_type_id : Value
  inventory_model_id : Value
  account_service_id : Value
  id : Value
  sonar_unique_id : Value
  created_at : Value
  updated_at : Value
  inventoryitemable : Option AddressObj
  deployment_type : Option DeploymentTypeObj
  inventory_model : Option InventoryModelObj
  inventory_model_field_data : List FieldDataEntry
deriving DecidableEq, Repr

/-- A row of None cells for the given columns, as written by the null-fill
branches of the flattener. -/
def nullRow (ks : List String) : Row :=
  ks.map (fun k => (k, Value.null))

/-- The nine top-level columns of an inventory row. -/
def invTopKeys : List String :=
  ["inventoryitemable_type", "inventoryitemable_id", "deployment_type_id",
   "inventory_model_id", "account_service_id", "InventoryItem_id",
   "InventoryItem_sonar_unique_id", "InventoryItem_created_at",
   "InventoryItem_updated_at"]

/-- The Address-prefixed columns. -/
def addressKeys : List String :=
  ["Address_address_status_id", "Address_line1", "Address_line2",
   "Address_city", "Address_county", "Address_subdivision", "Address_zip",
   "Address_country", "Address_latitude", "Address_longitude", "Address_fips",
   "Address_type", "Address_addressable_type", "Address_addressable_id",
   "Address_serviceable", "Address_is_anchor", "Address_anchor_address_id",
   "Address_billing_default_id", "Address_attainable_download_speed",
   "Address_attainable_upload_speed", "Address_timezone", "Address_id",
   "Address_sonar_unique_id", "Address_created_at", "Address_updated_at"]

/-- The Account-prefixed columns. -/
def accountKeys : List String :=
  ["Account_name", "Account_archived_at", "Account_archived_by_user_id",
   "Account_account_status_id", "Account_account_type_id",
   "Account_is_delinquent", "Account_is_eligible_for_archive",
   "Account_company_id", "Account_activation_date", "Account_next_bill_date",
   "Account_parent_account_id", "Account_geopoint",
   "Account_data_usage_percentage", "Account_next_recurring_charge_amount",
   "Account_disconnection_reason_id", "Account_id", "Account_sonar_unique_id",
   "Account_created_at", "Account_updated_at"]

/-- The DeploymentType-prefixed columns. -/
def deploymentKeys : List String :=
  ["DeploymentType_name", "DeploymentType_inventory_model_id",
   "DeploymentType_network_monitoring_template_id", "DeploymentType_id"]

/-- The InventoryModel-prefixed columns. -/
def modelKeys : List String :=
  ["InventoryModel_enabled", "InventoryModel_manufacturer_id",
   "InventoryModel_inventory_model_category_id", "InventoryModel_icon",
   "InventoryModel_model_name", "InventoryModel_name"]

/-- The FieldData-prefixed columns. -/
def fieldDataKeys : List String :=
  ["FieldData_inventory_model_field_id", "FieldData_inventory_item_id",
   "FieldData_value", "FieldData_id",
   "FieldData_inventory_model_field_id_nested", "FieldData_name",
   "FieldData_type"]

/-- The IPAssignment-prefixed columns. -/
def ipKeys : List String :=
  ["IPAssignment_account_service_id", "IPAssignment_subnet",
   "IPAssignment_soft", "IPAssignment_reference", "IPAssignment_description",
   "IPAssignment_subnet_id", "IPAssignment_ip_pool_id",
   "IPAssignment_ipassignmentable_type", "IPAssignment_ipassignmentable_id",
   "IPAssignment_id", "IPAssignment_sonar_unique_id",
   "IPAssignment_created_at", "IPAssignment_updated_at"]

/-- All columns filled by optional branches of the inventory flattener. -/
def invOptionalKeys : List String :=
  addressKeys ++ accountKeys ++ deploymentKeys ++ modelKeys ++
    fieldDataKeys ++ ipKeys

/-- The full fixed column set of a flattened inventory row. -/
def invColumns : List String := invTopKeys ++ invOptionalKeys

/-- The initial top-level assignments of the row dict. -/
def topPairs (it : InvEntity) : Row :=
  [("inventoryitemable_type", it.inventoryitemable_type),
   ("inventoryitemable_id", it.inventoryitemable_id),
   ("deployment_type_id", it.deployment_type_id),
   ("inventory_model_id", it.inventory_model_id),
   ("account_service_id", it.account_service_id),
   ("InventoryItem_id", it.id),
   ("InventoryItem_sonar_unique_id", it.sonar_unique_id),
   ("InventoryItem_created_at", it.created_at),
   ("InventoryItem_updated_at", it.updated_at)]

/-- The Address block written when inventoryitemable is present. -/
def addressPairs (a : AddressObj) : Row :=
  [("Address_address_status_id", a.address_status_id),
   ("Address_line1", a.line1),
   ("Address_line2", a.line2),
   ("Address_city", a.city),
   ("Address_county", a.county),
   ("Address_subdivision", a.subdivision),
   ("Address_zip", a.zip),
   ("Address_country", a.country),
   ("Address_latitude", a.latitude),
   ("Address_longitude", a.longitude),
   ("Address_fips", a.fips),
   ("Address_type", a.type),
   ("Address_addressable_type", a.addressable_type),
   ("Address_addressable_id", a.addressable_id),
   ("Address_serviceable", a.serviceable),
   ("Address_is_anchor", a.is_anchor),
   ("Address_anchor_address_id", a.anchor_address_id),
   ("Address_billing_default_id", a.billing_default_id),
   ("Address_attainable_download_speed", a.attainable_download_speed),
   ("Address_attainable_upload_speed", a.attainable_upload_speed),
   ("Address_timezone", a.timezone),
   ("Address_id", a.id),
   ("Address_sonar_unique_id", a.sonar_unique_id),
   ("Address_created_at", a.created_at),
   ("Address_updated_at", a.updated_at)]

/-- The Account block written when addressable is present. -/
def accountPairs (acc : AccountObj) : Row :=
  [("Account_name", acc.name),
   ("Account_archived_at", acc.archived_at),
   ("Account_archived_by_user_id", acc.archived_by_user_id),
   ("Account_account_status_id", acc.account_status_id),
   ("Account_account_type_id", acc.account_type_id),
   ("Account_is_delinquent", acc.is_delinquent),
   ("Account_is_eligible_for_archive", acc.is_eligible_for_archive),
   ("Account_company_id", acc.company_id),
   ("Account_activation_date", acc.activation_date),
   ("Account_next_bill_date", acc.next_bill_date),
   ("Account_parent_account_id", acc.parent_account_id),
   ("Account_geopoint", acc.geopoint),
   ("Account_data_usage_percentage", acc.data_usage_percentage),
   ("Account_next_recurring_charge_amount", acc.next_recurring_charge_amount),
   ("Account_disconnection_reason_id", acc.disconnection_reason_id),
   ("Account_id", acc.id),
   ("Account_sonar_unique_id", acc.sonar_unique_id),
   ("Account_created_at", acc.created_at),
   ("Account_updated_at", acc.updated_at)]

/-- The deployment_type block. -/
def deploymentPairs (d : DeploymentTypeObj) : Row :=
  [("DeploymentType_name", d.name),
   ("DeploymentType_inventory_model_id", d.inventory_model_id),
   ("DeploymentType_network_monitoring_template_id",
     d.network_monitoring_template_id),
   ("DeploymentType_id", d.id)]

/-- The inventory_model block. -/
def modelPairs (m : InventoryModelObj) : Row :=
  [("InventoryModel_enabled", m.enabled),
   ("InventoryModel_manufacturer_id", m.manufacturer_id),
   ("InventoryModel_inventory_model_category_id",
     m.inventory_model_category_id),
   ("InventoryModel_icon", m.icon),
   ("InventoryModel_model_name", m.model_name),
   ("InventoryModel_name", m.name)]

/-- The block written from the first field-data entry; the nested
inventory_model_field reads go through the .get default chain. -/
def fieldDataPairs (fd : FieldDataEntry) : Row :=
  [("FieldData_inventory_model_field_id", fd.inventory_model_field_id),
   ("FieldData_inventory_item_id", fd.inventory_item_id),
   ("FieldData_value", fd.value),
   ("FieldData_id", fd.id),
   ("FieldData_inventory_model_field_id_nested",
     (fd.inventory_model_field.map (fun f => f.inventory_model_id)).getD .null),
   ("FieldData_name",
     (fd.inventory_model_field.map (fun f => f.name)).getD .null),
   ("FieldData_type",
     (fd.inventory_model_field.map (fun f => f.type)).getD .null)]

/-- The block written from the first ip_assignments entry of the first
field-data entry. -/
def ipPairs (ip : IpAssignmentObj) : Row :=
  [("IPAssignment_account_service_id", ip.account_service_id),
   ("IPAssignment_subnet", ip.subnet),
   ("IPAssignment_soft", ip.soft),
   ("IPAssignment_reference", ip.reference),
   ("IPAssignment_description", ip.description),
   ("IPAssignment_subnet_id", ip.subnet_id),
   ("IPAssignment_ip_pool_id", ip.ip_pool_id),
   ("IPAssignment_ipassignmentable_type", ip.ipassignmentable_type),
   ("IPAssignment_ipassignmentable_id", ip.ipassignmentable_id),
   ("IPAssignment_id", ip.id),
   ("IPAssignment_sonar_unique_id", ip.sonar_unique_id),
   ("IPAssignment_created_at", ip.created_at),
   ("IPAssignment_updated_at", ip.updated_at)]

/-- The per-item row builder of flatten_inventory_items_response: top-level
fields, then each optional block either from its object or null-filled, the
field-data and IP blocks taken from first entries only. -/
def flattenInvItem (it : InvEntity) : Row :=
  topPairs it ++
  (match it.inventoryitemable with
   | some a =>
     addressPairs a ++
       (match a.addressable with
        | some acc => accountPairs acc
        | none => nullRow accountKeys)
   | none => nullRow addressKeys ++ nullRow accountKeys) ++
  (match it.deployment_type with
   | some d => deploymentPairs d
   | none => nullRow deploymentKeys) ++
  (match it.inventory_model with
   | some m => modelPairs m
   | none => nullRow modelKeys) ++
  (match it.inventory_model_field_data with
   | [] => nullRow fieldDataKeys ++ nullRow ipKeys
   | fd :: _ =>
     fieldDataPairs fd ++
       (match fd.ip_assignments with
        | [] => nullRow ipKeys
        | ip :: _ => ipPairs ip))

/-- The inventory_items object of the response; a missing entities key reads
as the empty list. -/
structure InvItemsField where
  entities : Option (List InvEntity)
deriving DecidableEq, Repr

/-- The data object of the inventory response. -/
structure InvDataField where
  inventory_items : Option InvItemsField
deriving DecidableEq, Repr

/-- A full inventory response; none models a missing key at each level. -/
structure InvResponse where
  data : Option InvDataField
deriving DecidableEq, Repr

/-- flatten_inventory_items_response: the .get default chain to the entity
list, then one flat row per entity. -/
def flatten_inventory_items_response (resp : InvResponse) : Table :=
  let items : List InvEntity :=
    match resp.data with
    | none => []
    | some d =>
      match d.inventory_items with
      | none => []
      | some ii => ii.entities.getD []
  items.map flattenInvItem

/-! ### Accounts flattener (flatten_accounts.py) -/

/-- One assignment-history entry of the accounts response. -/
structure HistRec where
  created_at : Value
  end_date : Value
  id : Value
  account_id : Value
  address_id : Value
deriving DecidableEq, Repr

/-- One phone-number entry. -/
structure PhoneRec where
  country : Value
  number : Value
  number_formatted : Value
deriving DecidableEq, Repr

/-- One contact entry with its phone numbers. -/
structure ContactRec where
  name : Value
  role : Value
  primary : Value
  email_address : Value
  phone_numbers : List PhoneRec
deriving DecidableEq, Repr

/-- One address entry of the accounts response. -/
structure AcctAddressRec where
  address_status_id : Value
  line1 : Value
  line2 : Value
  city : Value
  county : Value
  subdivision : Value
  zip : Value
  country : Value
  latitude : Value
  longitude : Value
  fips : Value
  type : Value
  addressable_type : Value
  addressable_id : Value
  serviceable : Value
  id : Value
deriving DecidableEq, Repr

/-- One account entity; absent entity arrays are the empty list. -/
structure AccountEntity where
  id : Value
  serviceable_address_account_assignment_histories : List HistRec
  contacts : List ContactRec
  addresses : List AcctAddressRec
deriving DecidableEq, Repr

/-- Python histories[-3:]: the trailing three entries (the whole list when it
is shorter). -/
def lastThreeHistories (hs : List HistRec) : List HistRec :=
  hs.drop (hs.length - 3)

/-- The history object placed in positional slot i (0-based): the trailing
three entries reversed so the latest comes first, as the enumerate(reversed())
fill loop produces. -/
def historySlot (hs : List HistRec) (i : Nat) : Option HistRec :=
  (lastThreeHistories hs).reverse[i]?

/-- One field of slot i, null when the slot is unfilled. -/
def histSlotVal (hs : List HistRec) (i : Nat) (f : HistRec → Value) : Value :=
  match historySlot hs i with
  | some h => f h
  | none => Value.null

/-- The column name AssignmentHistory(i+1)_suffix of the fill loop. -/
def ahKey (i : Nat) (suffix : String) : String :=
  "AssignmentHistory" ++ toString (i + 1) ++ "_" ++ suffix

/-- The fifteen assignment-history columns: the init loop creates the keys of
slots 1..3 in order, the fill loop overwrites them in place. -/
def historyPairs (hs : List HistRec) : Row :=
  (List.range 3).flatMap (fun i =>
    [(ahKey i "created_at", histSlotVal hs i (fun h => h.created_at)),
     (ahKey i "end_date", histSlotVal hs i (fun h => h.end_date)),
     (ahKey i "id", histSlotVal hs i (fun h => h.id)),
     (ahKey i "account_id", histSlotVal hs i (fun h => h.account_id)),
     (ahKey i "address_id", histSlotVal hs i (fun h => h.address_id))])

/-- The contact/phone block: first contact, its first phone number, null-fill
otherwise. -/
def contactPairs (cs : List ContactRec) : Row :=
  match cs with
  | [] =>
    [("Contact_name", .null), ("Contact_role", .null),
     ("Contact_primary", .null), ("Contact_email_address", .null),
     ("PhoneNumber_country", .null), ("PhoneNumber_number", .null),
     ("PhoneNumber_number_formatted", .null)]
  | c :: _ =>
    [("Contact_name", c.name), ("Contact_role", c.role),
     ("Contact_primary", c.primary),
     ("Contact_email_address", c.email_address)] ++
    (match c.phone_numbers with
     | [] =>
       [("PhoneNumber_country", .null), ("PhoneNumber_number", .null),
        ("PhoneNumber_number_formatted", .null)]
     | p :: _ =>
       [("PhoneNumber_country", p.country), ("PhoneNumber_number", p.number),
        ("PhoneNumber_number_formatted", p.number_formatted)])

/-- The address block: first address or null-fill. -/
def acctAddressPairs (as_ : List AcctAddressRec) : Row :=
  match as_ with
  | [] =>
    [("Address_address_status_id", .null), ("Address_line1", .null),
     ("Address_line2", .null), ("Address_city", .null),
     ("Address_county", .null), ("Address_subdivision", .null),
     ("Address_zip", .null), ("Address_country", .null),
     ("Address_latitude", .null), ("Address_longitude", .null),
     ("Address_fips", .null), ("Address_type", .null),
     ("Address_addressable_type", .null), ("Address_addressable_id", .null),
     ("Address_serviceable", .null), ("Address_id", .null)]
  | a :: _ =>
    [("Address_address_status_id", a.address_status_id),
     ("Address_line1", a.line1), ("Address_line2", a.line2),
     ("Address_city", a.city), ("Address_county", a.county),
     ("Address_subdivision", a.subdivision), ("Address_zip", a.zip),
     ("Address_country", a.country), ("Address_latitude", a.latitude),
     ("Address_longitude", a.longitude), ("Address_fips", a.fips),
     ("Address_type", a.type),
     ("Address_addressable_type", a.addressable_type),
     ("Address_addressable_id", a.addressable_id),
     ("Address_serviceable", a.serviceable), ("Address_id", a.id)]

/-- The per-account row builder of flatten_accounts_response. -/
def flattenAccount (a : AccountEntity) : Row :=
  [("Account_id", a.id)] ++
  historyPairs a.serviceable_address_account_assignment_histories ++
  contactPairs a.contacts ++
  acctAddressPairs a.addresses

/-- The accounts object of the response. -/
structure AccountsField where
  entities : Option (List AccountEntity)
deriving DecidableEq, Repr

/-- The data object of the accounts response. -/
structure AccDataField where
  accounts : Option AccountsField
deriving DecidableEq, Repr

/-- A full accounts response; none models a missing key at each level. -/
structure AccResponse where
  data : Option AccDataField
deriving DecidableEq, Repr

/-- flatten_accounts_response: the .get default chain to the entity list,
then one flat row per account. -/
def flatten_accounts_response (resp : AccResponse) : Table :=
  let accounts : List AccountEntity :=
    match resp.data with
    | none => []
    | some d =>
      match d.accounts with
      | none => []
      | some a => a.entities.getD []
  accounts.map flattenAccount

/-- The five values of assignment-history slot i as read back from a
flattened account row, in source column order. -/
def assignmentSlotValues (r : Row) (i : Nat) : List Value :=
  [rowGet r (ahKey i "created_at"), rowGet r (ahKey i "end_date"),
   rowGet r (ahKey i "id"), rowGet r (ahKey i "account_id"),
   rowGet r (ahKey i "address_id")]

/-- The five fields of a history entry in the same order, null-filled for an
absent entry. -/
def histFieldValues : Option HistRec → List Value
  | some h => [h.created_at, h.end_date, h.id, h.account_id, h.address_id]
  | none => [.null, .null, .null, .null, .null]

/-! ### Serviceable-address classifier (GetRemovalsList kinda working copy) -/

/-- The account of a history entry, reduced to the value reached by
.get(account_status, default).get(name): null when either key is absent. -/
structure SAAccount where
  statusName : Value
deriving DecidableEq, Repr

/-- One serviceable-address assignment-history entry; none models a missing
or null account relation. -/
structure SAHistory where
  account : Option SAAccount
deriving DecidableEq, Repr

/-- One directly-attached inventory item; its id must be a string for
', '.join to succeed in the source. -/
structure SAInvItem where
  id : String
deriving DecidableEq, Repr

/-- One address returned by the serviceable-address query. -/
structure SAAddress where
  id : Value
  type : Value
  histories : List SAHistory
  inventory_items : List SAInvItem
deriving DecidableEq, Repr

/-- One filtered-address candidate dict. -/
structure SACandidate where
  id : Value
  type : Value
  inventory_ids : String
  reason : String
deriving DecidableEq, Repr

/-- The serviceable-address response reduced to its entity list. -/
structure SAResponse where
  addresses : List SAAddress
deriving DecidableEq, Repr

/-- ', '.join(ids) if ids else 'None'. -/
def joinedInventoryIds (items : List SAInvItem) : String :=
  if items.isEmpty then "None"
  else String.intercalate ", " (items.map (fun it => it.id))

/-- The per-address classification of
filterServicableAddressesWithoutActiveAccounts, first match wins. -/
def classifyAddress (a : SAAddress) : Option SACandidate :=
  if a.histories.isEmpty then
    some ⟨a.id, a.type, joinedInventoryIds a.inventory_items, "NULL histories"⟩
  else if a.histories.any (fun h => h.account.isNone) then
    some ⟨a.id, a.type, joinedInventoryIds a.inventory_items,
      "Any account missing"⟩
  else if a.histories.any (fun h =>
      match h.account with
      | some acc => acc.statusName != Value.str "Active"
      | none => true) then
    some ⟨a.id, a.type, joinedInventoryIds a.inventory_items,
      "Has inactive account"⟩
  else
    none

/-- filterServicableAddressesWithoutActiveAccounts over the address list. -/
def filterServicableAddressesWithoutActiveAccounts (data : SAResponse) :
    List SACandidate :=
  data.addresses.filterMap classifyAddress

/-- The servicable_data row built from a candidate in removals_lists. -/
def candidateToRow (c : SACandidate) : Row :=
  [("address_id", c.id), ("type", c.type),
   ("inventory_ids", Value.str c.inventory_ids),
   ("reason", Value.str c.reason)]

/-! ### Reconciliation engine (combine_removal_lists) -/

/-- expand_servicable_row_to_ids: a single inventory_id, then the
comma-separated inventory_ids, stripped and filtered to non-empty parts. -/
def expand_servicable_row_to_ids (r : Row) : List String :=
  let ids1 :=
    if rowHas r "inventory_id" && (rowGet r "inventory_id").notna then
      [pyStr (rowGet r "inventory_id")]
    else []
  let ids2 :=
    if rowHas r "inventory_ids" && (rowGet r "inventory_ids").notna then
      ((pySplitComma (pyStr (rowGet r "inventory_ids"))).map
        pyStrip).filter (fun s => !s.isEmpty)
    else []
  ids1 ++ ids2

/-- The defaultdict(set) of reasons keyed by inventory id, in key-insertion
order with per-key reason lists kept duplicate-free. -/
abbrev ReasonMap := List (Value × List String)

/-- inventory_reasons[iid].add(reason): create the key on first touch,
add the reason only when absent. -/
def addReason (m : ReasonMap) (k : Value) (s : String) : ReasonMap :=
  match m with
  | [] => [(k, [s])]
  | (k', rs) :: rest =>
    if k' = k then (k', if s ∈ rs then rs else rs ++ [s]) :: rest
    else (k', rs) :: addReason rest k s

/-- Reading the reason set of one inventory id. -/
def lookupReasons (m : ReasonMap) (k : Value) : Option (List String) :=
  (m.find? (fun p => p.1 == k)).map (fun p => p.2)

/-- The rows of the (normalized) inventory table grouped under one account
id. -/
def accountRowsFor (t : Table) (k : Value) : List Row :=
  t.filter (fun r => rowGet r "Account_id" == k)

/-- account_to_inventories.get(k): the dict built by
dropna.groupby(Account_id)[InventoryItem_id].apply(list); absent keys and the
missing value give None. -/
def lookupInvs (t : Table) (k : Value) : Option (List Value) :=
  if k == Value.null then none
  else
    match accountRowsFor t k with
    | [] => none
    | rows => some (rows.map (fun r => rowGet r "InventoryItem_id"))

/-- The print diagnostics of combine_removal_lists. -/
inductive LogEntry where
  | inactiveNoInventory (acct : String) : LogEntry
  | uninstallNoInventory (eid : Option String) : LogEntry
  | uninstallNotAccount (etype : String) (eid : Value) : LogEntry
deriving DecidableEq, Repr

/-- Python substring containment pat in s. -/
def strContainsSub (s pat : String) : Bool :=
  (List.range (s.length + 1)).any (fun i =>
    pat.toList.isPrefixOf (s.toList.drop i))

/-- str(r.get(entity_type) or '').lower(). -/
def etypeOf (r : Row) : String :=
  let v := rowGet r "entity_type"
  pyLower (if v.truthy then pyStr v else "")

/-- The account-eligibility test of step 3: 'account' in etype. -/
def isAccountType (etype : String) : Bool :=
  strContainsSub etype "account"

/-- Step 1: servicable candidates expanded to inventory ids, each receiving
the row's reason. -/
def processServicable (sv : Table) (m : ReasonMap) : ReasonMap :=
  sv.foldl (fun m r =>
    let reason := pyStr (rowGetD r "reason" (Value.str "Servicable Address"))
    (expand_servicable_row_to_ids r).foldl
      (fun m iid => addReason m (Value.str iid) reason) m) m

/-- Step 2: inactive accounts mapped through the account-to-inventory index;
unmapped accounts leave a note. -/
def processInactive (nInv : Table) (ia : Table)
    (st : ReasonMap × List LogEntry) : ReasonMap × List LogEntry :=
  ia.foldl (fun st r =>
    let acct := rowGet r "account_id"
    if acct.notna then
      let acctKey := pyStrip (pyStr acct)
      let reason := pyStr (rowGetD r "reason"
        (Value.str "Inactive Account with Inventory Assigned"))
      match lookupInvs nInv (Value.str acctKey) with
      | some invs =>
        (invs.foldl (fun m iid => addReason m iid reason) st.1, st.2)
      | none => (st.1, st.2 ++ [LogEntry.inactiveNoInventory acctKey])
    else st) st

/-- Step 3: uninstall jobs, account-keyed only; non-account subjects leave a
warning, unmapped accounts a note. -/
def processUninstall (nInv : Table) (un : Table)
    (st : ReasonMap × List LogEntry) : ReasonMap × List LogEntry :=
  un.foldl (fun st r =>
    let etype := etypeOf r
    let eid := rowGet r "entity_id"
    let reason := pyStr (rowGetD r "reason" (Value.str "Uninstall Job"))
    if isAccountType etype then
      let eidKey : Option String :=
        if eid.notna then some (pyStrip (pyStr eid)) else none
      let invs : Option (List Value) :=
        match eidKey with
        | some k => lookupInvs nInv (Value.str k)
        | none => none
      match invs with
      | some l => (l.foldl (fun m iid => addReason m iid reason) st.1, st.2)
      | none => (st.1, st.2 ++ [LogEntry.uninstallNoInventory eidKey])
    else
      (st.1, st.2 ++ [LogEntry.uninstallNotAccount etype eid])) st

/-- The reason map and diagnostics after the three collection steps. -/
def reasonMapOf (nInv : Table) (ia sv un : Table) :
    ReasonMap × List LogEntry :=
  processUninstall nInv un (processInactive nInv ia (processServicable sv [], []))

/-- sorted() on the reason strings, by Python string order. -/
def sortReasons (l : List String) : List String :=
  List.insertionSort (fun a b => strLe a b = true) l

/-- ' | '.join(sorted(reasons)). -/
def joinReasons (rs : List String) : String :=
  String.intercalate " | " (sortReasons rs)

/-- df[df[col] == v].iloc[0], as an Option. -/
def firstRowWhere (t : Table) (k : String) (v : Value) : Option Row :=
  (t.filter (fun r => rowGet r k == v)).head?

/-- One optional account-side field of the final row: the first accounts row
matching the normalized account key, read at the given column when the
column exists; null otherwise. -/
def accFieldFor (nAcc : Table) (acctId : Value) (col : String) : Value :=
  let acctKey : Option String :=
    if acctId.notna then some (pyStrip (pyStr acctId)) else none
  let accRows : List Row :=
    match acctKey with
    | some k =>
      if hasCol nAcc "Account_id" then accountRowsFor nAcc (Value.str k)
      else []
    | none => []
  match accRows.head? with
  | some a => if hasCol nAcc col then rowGet a col else Value.null
  | none => Value.null

/-- One row of the final combined table. -/
structure FinalRow where
  invId : Value
  invModel : Value
  mac : Value
  ip : Value
  addrId : Value
  addrLine1 : Value
  reasonStr : String
  acctId : Value
  acctName : Value
  acctStatus : Value
  acctEmail : Value
  acctPhone : Value
  endDate : Value
deriving DecidableEq, Repr

/-- The final-row assembly for one inventory id: the fallback all-null row
when the id is absent from the inventory table, otherwise the inventory row
enriched with account-side fields, the account name falling back to the
inline inventory value when the account-side value is falsy. -/
def assembleRow (nInv nAcc : Table) (iid : Value) (rs : List String) :
    FinalRow :=
  match firstRowWhere nInv "InventoryItem_id" iid with
  | none =>
    { invId := iid, invModel := .null, mac := .null, ip := .null,
      addrId := .null, addrLine1 := .null, reasonStr := joinReasons rs,
      acctId := .null, acctName := .null, acctStatus := .null,
      acctEmail := .null, acctPhone := .null, endDate := .null }
  | some inv =>
    let acctId := rowGet inv "Account_id"
    { invId := iid,
      invModel := pyOr (rowGet inv "InventoryModel_model_name")
        (rowGet inv "InventoryModel_name"),
      mac := rowGet inv "FieldData_value",
      ip := rowGet inv "IPAssignment_subnet",
      addrId := pyOr (rowGet inv "Address_id") (rowGet inv "Address_id"),
      addrLine1 := rowGet inv "Address_line1",
      reasonStr := joinReasons rs,
      acctId := acctId,
      acctName := pyOr (accFieldFor nAcc acctId "Account_name")
        (rowGet inv "Account_name"),
      acctStatus := rowGet inv "Account_account_status_id",
      acctEmail := accFieldFor nAcc acctId "Contact_email_address",
      acctPhone := accFieldFor nAcc acctId "PhoneNumber_number_formatted",
      endDate := accFieldFor nAcc acctId "AssignmentHistory1_end_date" }

/-- The outcome of combine_removal_lists: the final table, the printed
diagnostics, and the two input tables as the caller observes them after the
call (the function normalizes their Account_id columns in place). -/
structure CombineResult where
  final : List FinalRow
  logs : List LogEntry
  dfInventoryAfter : Table
  dfAccountsAfter : Table
deriving Repr

/-- combine_removal_lists: normalize the Account_id columns of both input
tables in place, collect reasons per inventory id from the three candidate
tables, then assemble one final row per collected id. -/
def combine_removal_lists (dfInv dfAcc ia sv un : Table) : CombineResult :=
  let nInv := normalizeAccountId dfInv
  let nAcc := normalizeAccountId dfAcc
  let st := reasonMapOf nInv ia sv un
  { final := st.1.map (fun p => assembleRow nInv nAcc p.1 p.2),
    logs := st.2,
    dfInventoryAfter := nInv,
    dfAccountsAfter := nAcc }

/-- The malformed inventory responses of the structural-error contract: one
of the data / inventory_items / entities keys is absent. -/
def invResponseMissingKeys (r : InvResponse) : Prop :=
  r.data = none ∨
    ∃ d, r.data = some d ∧
      (d.inventory_items = none ∨
        ∃ ii, d.inventory_items = some ii ∧ ii.entities = none)

/-- The malformed accounts responses: one of the data / accounts / entities
keys is absent. -/
def accResponseMissingKeys (r : AccResponse) : Prop :=
  r.data = none ∨
    ∃ d, r.data = some d ∧
      (d.accounts = none ∨
        ∃ a, d.accounts = some a ∧ a.entities = none)

/-! ### Concrete inputs used to exercise the theorems -/

/-- Two servicable candidate rows contributing the reasons B then A to the
same inventory id. -/
def w2Sv : Table :=
  [[("inventory_ids", Value.str "i1"), ("reason", Value.str "B")],
   [("inventory_ids", Value.str "i1"), ("reason", Value.str "A")]]

/-- The single final row produced from w2Sv against empty base tables. -/
def w2Final : FinalRow :=
  { invId := Value.str "i1", invModel := .null, mac := .null, ip := .null,
    addrId := .null, addrLine1 := .null, reasonStr := "A | B",
    acctId := .null, acctName := .null, acctStatus := .null,
    acctEmail := .null, acctPhone := .null, endDate := .null }

/-- An account-keyed uninstall candidate preceding the non-account one. -/
def w3Pre : Table :=
  [[("entity_type", Value.str "Account"), ("entity_id", Value.str "1")]]

/-- One uninstall-job candidate whose subject is not an Account. -/
def w3Row : Row :=
  [("entity_type", Value.str "InventoryItem"), ("entity_id", Value.int 7)]

/-- An account-keyed uninstall candidate following the non-account one. -/
def w3Post : Table :=
  [[("entity_type", Value.str "Account"), ("entity_id", Value.str "2")]]

/-- An inventory table with one row whose inline account snapshot carries a
name. -/
def c5Inv : Table :=
  [[("InventoryItem_id", Value.str "i1"), ("Account_id", Value.str "1"),
    ("Account_name", Value.str "Inventory Side")]]

/-- An accounts table whose matching row carries an empty account name. -/
def c5Acc : Table :=
  [[("Account_id", Value.str "1"), ("Account_name", Value.str "")]]

/-- An accounts table whose matching row carries a non-empty account name. -/
def c5AccB : Table :=
  [[("Account_id", Value.str "1"), ("Account_name", Value.str "Billing Side")]]

/-- One inactive-account candidate reaching the inventory row of c5Inv. -/
def c5Ia : Table :=
  [[("account_id", Value.str "1"), ("reason", Value.str "R")]]

/-- The c5Inv row as it sits in the normalized inventory table. -/
def c5InvRowN : Row :=
  [("InventoryItem_id", Value.str "i1"), ("Account_id", Value.str "1"),
   ("Account_name", Value.str "Inventory Side")]

/-- The final row of the run on c5Inv and the empty-name accounts table. -/
def w5FinalA : FinalRow :=
  { invId := Value.str "i1", invModel := .null, mac := .null, ip := .null,
    addrId := .null, addrLine1 := .null, reasonStr := "R",
    acctId := Value.str "1", acctName := Value.str "Inventory Side",
    acctStatus := .null, acctEmail := .null, acctPhone := .null,
    endDate := .null }

/-- The final row of the run on c5Inv and the non-empty-name accounts
table. -/
def w5FinalB : FinalRow :=
  { invId := Value.str "i1", invModel := .null, mac := .null, ip := .null,
    addrId := .null, addrLine1 := .null, reasonStr := "R",
    acctId := Value.str "1", acctName := Value.str "Billing Side",
    acctStatus := .null, acctEmail := .null, acctPhone := .null,
    endDate := .null }

/-- An inventory table whose Account_id column holds an integer. -/
def c9Table : Table := [[("Account_id", Value.int 5)]]

/-- An address with one history whose account is present but inactive. -/
def w6Addr : SAAddress :=
  { id := Value.int 1, type := Value.str "PHYSICAL",
    histories := [⟨some ⟨Value.str "Inactive"⟩⟩],
    inventory_items := [⟨"i9"⟩] }

/-- An account entity with two assignment histories. -/
def w7Acct : AccountEntity :=
  { id := Value.int 4,
    serviceable_address_account_assignment_histories :=
      [⟨Value.str "t1", Value.null, Value.int 11, Value.int 4, Value.int 8⟩,
       ⟨Value.str "t2", Value.str "e2", Value.int 12, Value.int 4,
         Value.int 8⟩],
    contacts := [], addresses := [] }

/-- An account entity with no assignment histories. -/
def w7AcctEmpty : AccountEntity :=
  { id := Value.int 5,
    serviceable_address_account_assignment_histories := [],
    contacts := [], addresses := [] }

/-- An inventory entity with every optional nested object absent. -/
def w8Item : InvEntity :=
  { inventoryitemable_type := .null, inventoryitemable_id := .null,
    deployment_type_id := .null, inventory_model_id := .null,
    account_service_id := .null, id := .null, sonar_unique_id := .null,
    created_at := .null, updated_at := .null,
    inventoryitemable := none, deployment_type := none,
    inventory_model := none, inventory_model_field_data := [] }

/-- A PHYSICAL address with no histories and no attached inventory. -/
def w10Addr : SAAddress :=
  { id := Value.int 9, type := Value.str "PHYSICAL", histories := [],
    inventory_items := [] }

/-- The candidate the classifier emits for w10Addr. -/
def w10Cand : SACandidate :=
  { id := Value.int 9, type := Value.str "PHYSICAL",
    inventory_ids := "None", reason := "NULL histories" }

/-! ### Basic lemmas about rows and normalization -/

theorem rowGet_nil (k : String) : rowGet [] k = Value.null := rfl

theorem rowGet_cons (p : String × Value) (r : Row) (k : String) :
    rowGet (p :: r) k = if p.1 == k then p.2 else rowGet r k := by
  cases h : p.1 == k <;> simp [rowGet, List.find?, h]

theorem nullRow_keys (ks : List String) :
    (nullRow ks).map Prod.fst = ks := by
  induction ks with
  | nil => rfl
  | cons k ks ih => simpa [nullRow] using ih

theorem nullRow_append (ks₁ ks₂ : List String) :
    nullRow (ks₁ ++ ks₂) = nullRow ks₁ ++ nullRow ks₂ := by
  simp [nullRow]

theorem normalizeRow_rowGet (r : Row) (k : String) (hk : k ≠ "Account_id") :
    rowGet (normalizeRow r) k = rowGet r k := by
  induction r with
  | nil => rfl
  | cons p rest ih =>
    rcases p with ⟨k₁, v⟩
    by_cases h : k₁ = "Account_id"
    · subst h
      have hne : ("Account_id" == k) = false := by
        simp only [beq_eq_false_iff_ne, ne_eq]
        exact fun hc => hk hc.symm
      have hstep : normalizeRow (("Account_id", v) :: rest) =
          ("Account_id", normVal v) :: normalizeRow rest := by
        simp [normalizeRow]
      rw [hstep, rowGet_cons, rowGet_cons]
      simp only [hne, Bool.false_eq_true, if_false]
      exact ih
    · have hstep : normalizeRow ((k₁, v) :: rest) =
          (k₁, v) :: normalizeRow rest := by
        simp [normalizeRow, h]
      rw [hstep, rowGet_cons, rowGet_cons]
      cases hc : k₁ == k
      · simp only [Bool.false_eq_true, if_false]
        exact ih
      · rfl

theorem normalizeAccountId_mem (t : Table) (r' : Row)
    (h : r' ∈ normalizeAccountId t) :
    ∃ r ∈ t, ∀ k, k ≠ "Account_id" → rowGet r' k = rowGet r k := by
  unfold normalizeAccountId at h
  by_cases hc : hasCol t "Account_id" = true
  · rw [if_pos hc] at h
    obtain ⟨r, hr, hmap⟩ := List.mem_map.1 h
    exact ⟨r, hr, fun k hk => hmap ▸ normalizeRow_rowGet r k hk⟩
  · rw [if_neg hc] at h
    exact ⟨r', h, fun _ _ => rfl⟩

theorem normalizeAccountId_getElem (t : Table) (i : Nat) (k : String)
    (hk : k ≠ "Account_id") :
    ((normalizeAccountId t)[i]?.map (fun r => rowGet r k)) =
      (t[i]?.map (fun r => rowGet r k)) := by
  unfold normalizeAccountId
  by_cases hc : hasCol t "Account_id" = true
  · rw [if_pos hc]
    rw [List.getElem?_map]
    cases h : t[i]? with
    | none => rfl
    | some r => simp [normalizeRow_rowGet r k hk]
  · rw [if_neg hc]

theorem normalizeAccountId_length (t : Table) :
    (normalizeAccountId t).length = t.length := by
  unfold normalizeAccountId
  by_cases hc : hasCol t "Account_id" = true
  · rw [if_pos hc, List.length_map]
  · rw [if_neg hc]

/-! ### Lemmas about the reason map -/

theorem addReason_keys (m : ReasonMap) (k : Value) (s : String) :
    (addReason m k s).map Prod.fst =
      if k ∈ m.map Prod.fst then m.map Prod.fst
      else m.map Prod.fst ++ [k] := by
  induction m with
  | nil => simp [addReason]
  | cons p rest ih =>
    by_cases h : p.1 = k
    · cases p
      simp_all [addReason]
    · cases p with
    | mk k' rs =>
      simp only at h
      simp only [addReason, if_neg h, List.map_cons, ih]
      by_cases hm : k ∈ rest.map Prod.fst
      · simp [hm, Ne.symm h]
      · simp [hm, Ne.symm h]

theorem addReason_keys_nodup (m : ReasonMap) (k : Value) (s : String)
    (h : (m.map Prod.fst).Nodup) :
    ((addReason m k s).map Prod.fst).Nodup := by
  rw [addReason_keys]
  by_cases hm : k ∈ m.map Prod.fst
  · rwa [if_pos hm]
  · rw [if_neg hm]
    simp [List.nodup_append, h, hm]

theorem addReason_values_nodup (m : ReasonMap) (k : Value) (s : String)
    (h : ∀ p ∈ m, p.2.Nodup) :
    ∀ p ∈ addReason m k s, p.2.Nodup := by
  induction m with
  | nil =>
    intro p hp
    simp [addReason] at hp
    simp [hp]
  | cons q rest ih =>
    intro p hp
    cases q with
    | mk k' rs =>
      by_cases hq : k' = k
      · rw [addReason, if_pos hq] at hp
        rcases List.mem_cons.1 hp with h1 | h1
        · subst h1
          by_cases hs : s ∈ rs
          · simpa [hs] using h (k', rs) (by simp)
          · have := h (k', rs) (by simp)
            simp only at this
            simp [hs, List.nodup_append, this]
        · exact h p (List.mem_cons_of_mem _ h1)
      · rw [addReason, if_neg hq] at hp
        rcases List.mem_cons.1 hp with h1 | h1
        · subst h1
          exact h (k', rs) (by simp)
        · exact ih (fun p hp => h p (List.mem_cons_of_mem _ hp)) p h1

theorem lookupReasons_of_mem (m : ReasonMap) (p : Value × List String)
    (hnd : (m.map Prod.fst).Nodup) (hp : p ∈ m) :
    lookupReasons m p.1 = some p.2 := by
  induction m with
  | nil => cases hp
  | cons q rest ih =>
    rcases List.mem_cons.1 hp with h1 | h1
    · subst h1
      simp [lookupReasons, List.find?]
    · have hq : ¬ (q.1 == p.1) = true := by
        simp only [beq_iff_eq]
        intro hc
        rw [List.map_cons, List.nodup_cons] at hnd
        exact hnd.1 (hc ▸ List.mem_map_of_mem Prod.fst h1)
      simp only [lookupReasons, List.find?, hq]
      exact ih (by
        rw [List.map_cons, List.nodup_cons] at hnd
        exact hnd.2) h1

theorem foldl_preserve {α β : Type} (P : β → Prop) (f : β → α → β)
    (h : ∀ b a, P b → P (f b a)) :
    ∀ (l : List α) (b : β), P b → P (l.foldl f b) := by
  intro l
  induction l with
  | nil => intro b hb; exact hb
  | cons a rest ih => intro b hb; exact ih (f b a) (h b a hb)

theorem processServicable_preserve (P : ReasonMap → Prop)
    (hP : ∀ m k s, P m → P (addReason m k s))
    (sv : Table) (m : ReasonMap) (hm : P m) :
    P (processServicable sv m) := by
  unfold processServicable
  refine foldl_preserve P _ ?_ sv m hm
  intro b r hb
  exact foldl_preserve P _ (fun b i hb => hP b (Value.str i) _ hb) _ b hb

theorem processInactive_preserve (P : ReasonMap → Prop)
    (hP : ∀ m k s, P m → P (addReason m k s))
    (nInv ia : Table) (st : ReasonMap × List LogEntry) (hm : P st.1) :
    P (processInactive nInv ia st).1 := by
  unfold processInactive
  refine foldl_preserve (fun st => P st.1) _ ?_ ia st hm
  intro b r hb
  dsimp only
  by_cases hna : (rowGet r "account_id").notna = true
  · rw [if_pos hna]
    cases h : lookupInvs nInv (Value.str (pyStrip (pyStr (rowGet r "account_id")))) with
    | some invs =>
      exact foldl_preserve P _ (fun b i hb => hP b i _ hb) _ b.1 hb
    | none => exact hb
  · rw [if_neg hna]
    exact hb

theorem processUninstall_preserve (P : ReasonMap → Prop)
    (hP : ∀ m k s, P m → P (addReason m k s))
    (nInv un : Table) (st : ReasonMap × List LogEntry) (hm : P st.1) :
    P (processUninstall nInv un st).1 := by
  unfold processUninstall
  refine foldl_preserve (fun st => P st.1) _ ?_ un st hm
  intro b r hb
  dsimp only
  by_cases hac : isAccountType (etypeOf r) = true
  · rw [if_pos hac]
    cases h : (match (if (rowGet r "entity_id").notna then
        some (pyStrip (pyStr (rowGet r "entity_id"))) else none) with
      | some k => lookupInvs nInv (Value.str k)
      | none => none : Option (List Value)) with
    | some invs =>
      simp only [h]
      exact foldl_preserve P _ (fun b i hb => hP b i _ hb) _ b.1 hb
    | none =>
      simp only [h]
      exact hb
  · rw [if_neg hac]
    exact hb

theorem reasonMapOf_keys_nodup (nInv ia sv un : Table) :
    (((reasonMapOf nInv ia sv un).1).map Prod.fst).Nodup := by
  unfold reasonMapOf
  exact processUninstall_preserve _ (fun m k s => addReason_keys_nodup m k s)
    nInv un _
    (processInactive_preserve _ (fun m k s => addReason_keys_nodup m k s)
      nInv ia _
      (processServicable_preserve _ (fun m k s => addReason_keys_nodup m k s)
        sv [] (by simp)))

theorem reasonMapOf_values_nodup (nInv ia sv un : Table) :
    ∀ p ∈ (reasonMapOf nInv ia sv un).1, p.2.Nodup := by
  unfold reasonMapOf
  exact processUninstall_preserve (fun m => ∀ p ∈ m, p.2.Nodup)
    (fun m k s h => addReason_values_nodup m k s h) nInv un _
    (processInactive_preserve _ (fun m k s h => addReason_values_nodup m k s h)
      nInv ia _
      (processServicable_preserve _
        (fun m k s h => addReason_values_nodup m k s h) sv [] (by simp)))

theorem assembleRow_invId (nInv nAcc : Table) (iid : Value)
    (rs : List String) : (assembleRow nInv nAcc iid rs).invId = iid := by
  cases h : firstRowWhere nInv "InventoryItem_id" iid <;>
    simp [assembleRow, h]

theorem assembleRow_reasonStr (nInv nAcc : Table) (iid : Value)
    (rs : List String) :
    (assembleRow nInv nAcc iid rs).reasonStr = joinReasons rs := by
  cases h : firstRowWhere nInv "InventoryItem_id" iid <;>
    simp [assembleRow, h]

theorem charListLe_total : ∀ as_ bs : List Char,
    charListLe as_ bs = true ∨ charListLe bs as_ = true := by
  intro as_
  induction as_ with
  | nil => intro bs; left; rfl
  | cons a as_ ih =>
    intro bs
    cases bs with
    | nil => right; rfl
    | cons b bs =>
      rcases lt_trichotomy a b with h | h | h
      · left; simp [charListLe, h]
      · subst h
        rcases ih bs with h2 | h2
        · left; simp [charListLe, lt_irrefl, h2]
        · right; simp [charListLe, lt_irrefl, h2]
      · right; simp [charListLe, h]

theorem charListLe_trans : ∀ as_ bs cs : List Char,
    charListLe as_ bs = true → charListLe bs cs = true →
    charListLe as_ cs = true := by
  intro as_
  induction as_ with
  | nil => intro bs cs h₁ h₂; rfl
  | cons a as_ ih =>
    intro bs cs h₁ h₂
    cases bs with
    | nil => simp [charListLe] at h₁
    | cons b bs =>
      cases cs with
      | nil => simp [charListLe] at h₂
      | cons c cs =>
        by_cases hab : a < b
        · by_cases hbc : b < c
          · simp [charListLe, lt_trans hab hbc]
          · by_cases hbc2 : b = c
            · subst hbc2; simp [charListLe, hab]
            · simp [charListLe, hbc, hbc2] at h₂
        · by_cases hab2 : a = b
          · subst hab2
            simp only [charListLe, lt_irrefl, if_false, if_pos rfl] at h₁
            by_cases hbc : a < c
            · simp [charListLe, hbc]
            · by_cases hbc2 : a = c
              · subst hbc2
                simp only [charListLe, lt_irrefl, if_false, if_pos rfl]
                  at h₂ ⊢
                exact ih bs cs h₁ h₂
              · simp [charListLe, hbc, hbc2] at h₂
          · simp [charListLe, hab, hab2] at h₁

theorem charListLe_antisymm : ∀ as_ bs : List Char,
    charListLe as_ bs = true → charListLe bs as_ = true → as_ = bs := by
  intro as_
  induction as_ with
  | nil =>
    intro bs h₁ h₂
    cases bs with
    | nil => rfl
    | cons b bs => simp [charListLe] at h₂
  | cons a as_ ih =>
    intro bs h₁ h₂
    cases bs with
    | nil => simp [charListLe] at h₁
    | cons b bs =>
      by_cases hab : a < b
      · have h1 : ¬ b < a := lt_asymm hab
        have h2 : b ≠ a := ne_of_gt hab
        simp [charListLe, h1, h2] at h₂
      · by_cases hab2 : a = b
        · subst hab2
          simp only [charListLe, lt_irrefl, if_false, if_pos rfl] at h₁ h₂
          rw [ih bs h₁ h₂]
        · simp [charListLe, hab, hab2] at h₁

theorem strLe_total (a b : String) : strLe a b = true ∨ strLe b a = true :=
  charListLe_total _ _

theorem strLe_trans (a b c : String) (h₁ : strLe a b = true)
    (h₂ : strLe b c = true) : strLe a c = true :=
  charListLe_trans _ _ _ h₁ h₂

theorem strLe_antisymm (a b : String) (h₁ : strLe a b = true)
    (h₂ : strLe b a = true) : a = b := by
  have h := charListLe_antisymm a.toList b.toList h₁ h₂
  cases a with
  | mk da =>
    cases b with
    | mk db => exact congrArg String.mk h

theorem processUninstall_append (nInv : Table) (un₁ un₂ : Table)
    (st : ReasonMap × List LogEntry) :
    processUninstall nInv (un₁ ++ un₂) st =
      processUninstall nInv un₂ (processUninstall nInv un₁ st) := by
  unfold processUninstall
  rw [List.foldl_append]

theorem processUninstall_cons_nonaccount (nInv : Table) (r : Row)
    (rest : Table) (st : ReasonMap × List LogEntry)
    (h : isAccountType (etypeOf r) = false) :
    processUninstall nInv (r :: rest) st =
      processUninstall nInv rest
        (st.1, st.2 ++ [LogEntry.uninstallNotAccount (etypeOf r)
          (rowGet r "entity_id")]) := by
  unfold processUninstall
  rw [List.foldl_cons]
  congr 1
  simp only [h, Bool.false_eq_true, if_false]

theorem processUninstall_fst_ext (nInv : Table) :
    ∀ (un : Table) (st st' : ReasonMap × List LogEntry), st.1 = st'.1 →
      (processUninstall nInv un st).1 = (processUninstall nInv un st').1 := by
  intro un
  induction un with
  | nil => intro st st' h; exact h
  | cons r rest ih =>
    intro st st' h
    unfold processUninstall
    rw [List.foldl_cons, List.foldl_cons]
    dsimp only
    by_cases hac : isAccountType (etypeOf r) = true
    · rw [if_pos hac, if_pos hac]
      cases hm : (match (if (rowGet r "entity_id").notna then
          some (pyStrip (pyStr (rowGet r "entity_id"))) else none) with
        | some k => lookupInvs nInv (Value.str k)
        | none => none : Option (List Value)) with
      | some l =>
        simp only [hm]
        exact ih _ _ (by simp [h])
      | none =>
        simp only [hm]
        exact ih _ _ h
    · rw [if_neg hac, if_neg hac]
      exact ih _ _ h

theorem processUninstall_logs_mem (nInv : Table) (un : Table)
    (st : ReasonMap × List LogEntry) (e : LogEntry) (he : e ∈ st.2) :
    e ∈ (processUninstall nInv un st).2 := by
  unfold processUninstall
  refine foldl_preserve (fun st => e ∈ st.2) _ ?_ un st he
  intro b r hb
  dsimp only
  by_cases hac : isAccountType (etypeOf r) = true
  · rw [if_pos hac]
    cases hm : (match (if (rowGet r "entity_id").notna then
        some (pyStrip (pyStr (rowGet r "entity_id"))) else none) with
      | some k => lookupInvs nInv (Value.str k)
      | none => none : Option (List Value)) with
    | some invs =>
      simp only [hm]
      exact hb
    | none =>
      simp only [hm]
      exact List.mem_append_left _ hb
  · rw [if_neg hac]
    exact List.mem_append_left _ hb

/-- C1. For every run of the reconciliation, the final table of
combine_removal_lists has no two rows with the same InventoryItem_id: the
assembly iterates over the reason dictionary, whose keys are pairwise
distinct, and each assembled row carries its key as InventoryItem_id, so
an id reached from several candidate sources yields a single row. -/
theorem combine_output_ids_nodup (dfInv dfAcc ia sv un : Table) :
    ((combine_removal_lists dfInv dfAcc ia sv un).final.map
      (fun fr => fr.invId)).Nodup := by
  show (((reasonMapOf (normalizeAccountId dfInv) ia sv un).1.map
      (fun p => assembleRow (normalizeAccountId dfInv)
        (normalizeAccountId dfAcc) p.1 p.2)).map (fun fr => fr.invId)).Nodup
  rw [List.map_map]
  have heq : (reasonMapOf (normalizeAccountId dfInv) ia sv un).1.map
      ((fun fr => fr.invId) ∘ (fun p => assembleRow (normalizeAccountId dfInv)
        (normalizeAccountId dfAcc) p.1 p.2)) =
      (reasonMapOf (normalizeAccountId dfInv) ia sv un).1.map Prod.fst :=
    List.map_congr_left (fun p _ => assembleRow_invId _ _ p.1 p.2)
  rw [heq]
  exact reasonMapOf_keys_nodup _ ia sv un

/-- C2. Every final row's reason string is exactly its deduplicated reason
set sorted lexicographically and joined with the delimiter, and the string
is determined by the membership of the reason set alone, so discovery order
cannot change it. -/
theorem combine_reason_strings_canonical :
    (∀ (dfInv dfAcc ia sv un : Table) (fr : FinalRow),
        fr ∈ (combine_removal_lists dfInv dfAcc ia sv un).final →
        ∃ rs : List String,
          lookupReasons (reasonMapOf (normalizeAccountId dfInv) ia sv un).1
              fr.invId = some rs ∧
          rs.Nodup ∧
          fr.reasonStr = String.intercalate " | " (sortReasons rs) ∧
          List.Sorted (fun a b : String => strLe a b = true)
            (sortReasons rs)) ∧
    (∀ l₁ l₂ : List String, l₁.Nodup → l₂.Nodup →
        (∀ s, s ∈ l₁ ↔ s ∈ l₂) →
        String.intercalate " | " (sortReasons l₁) =
          String.intercalate " | " (sortReasons l₂)) := by
  haveI hTot : IsTotal String (fun a b => strLe a b = true) := ⟨strLe_total⟩
  haveI hTrans : IsTrans String (fun a b => strLe a b = true) :=
    ⟨strLe_trans⟩
  haveI hAnti : IsAntisymm String (fun a b => strLe a b = true) :=
    ⟨strLe_antisymm⟩
  constructor
  · intro dfInv dfAcc ia sv un fr hfr
    have hmem : fr ∈ (reasonMapOf (normalizeAccountId dfInv) ia sv un).1.map
        (fun p => assembleRow (normalizeAccountId dfInv)
          (normalizeAccountId dfAcc) p.1 p.2) := hfr
    obtain ⟨p, hp, hfr_eq⟩ := List.mem_map.1 hmem
    refine ⟨p.2, ?_, ?_, ?_, ?_⟩
    · rw [← hfr_eq, assembleRow_invId]
      exact lookupReasons_of_mem _ p (reasonMapOf_keys_nodup _ ia sv un) hp
    · exact reasonMapOf_values_nodup _ ia sv un p hp
    · rw [← hfr_eq, assembleRow_reasonStr]; rfl
    · exact List.sorted_insertionSort _ _
  · intro l₁ l₂ h₁ h₂ hmem
    have hperm : List.Perm l₁ l₂ := (List.perm_ext_iff_of_nodup h₁ h₂).2 hmem
    have hsorteq : sortReasons l₁ = sortReasons l₂ :=
      List.eq_of_perm_of_sorted
        ((List.perm_insertionSort _ l₁).trans
          (hperm.trans (List.perm_insertionSort _ l₂).symm))
        (List.sorted_insertionSort _ _) (List.sorted_insertionSort _ _)
    rw [hsorteq]

/-- Witness for C2: against empty base tables, two servicable rows feeding
reasons B then A to inventory id i1 produce one row whose reason string is
the sorted joined form A | B. -/
theorem combine_reason_strings_canonical_witness :
    ∃ rs : List String,
      lookupReasons (reasonMapOf (normalizeAccountId []) [] w2Sv []).1
          w2Final.invId = some rs ∧
      rs.Nodup ∧
      w2Final.reasonStr = String.intercalate " | " (sortReasons rs) ∧
      List.Sorted (fun a b : String => strLe a b = true) (sortReasons rs) :=
  combine_reason_strings_canonical.1 [] [] [] w2Sv [] w2Final
    (by rw [show (combine_removal_lists [] [] [] w2Sv []).final = [w2Final]
          from rfl]
        exact List.mem_singleton.2 rfl)

/-- C3. A single uninstall-job candidate whose entity_type does not denote
an Account (decided by the case-insensitive substring match), placed at any
position in an otherwise arbitrary candidate list, contributes no reason
anywhere in the output — the final table equals the one computed with that
candidate removed, the surrounding account-typed candidates still
processed — and the run logs a warning naming the skipped entity. -/
theorem combine_uninstall_account_only :
    ∀ (dfInv dfAcc ia sv pre post : Table) (r : Row),
      isAccountType (etypeOf r) = false →
      (combine_removal_lists dfInv dfAcc ia sv (pre ++ r :: post)).final =
        (combine_removal_lists dfInv dfAcc ia sv (pre ++ post)).final ∧
      LogEntry.uninstallNotAccount (etypeOf r) (rowGet r "entity_id") ∈
        (combine_removal_lists dfInv dfAcc ia sv (pre ++ r :: post)).logs := by
  intro dfInv dfAcc ia sv pre post r hr
  constructor
  · show (reasonMapOf (normalizeAccountId dfInv) ia sv
        (pre ++ r :: post)).1.map
        (fun p => assembleRow (normalizeAccountId dfInv)
          (normalizeAccountId dfAcc) p.1 p.2) =
      (reasonMapOf (normalizeAccountId dfInv) ia sv (pre ++ post)).1.map
        (fun p => assembleRow (normalizeAccountId dfInv)
          (normalizeAccountId dfAcc) p.1 p.2)
    have hfst : (reasonMapOf (normalizeAccountId dfInv) ia sv
        (pre ++ r :: post)).1 =
        (reasonMapOf (normalizeAccountId dfInv) ia sv (pre ++ post)).1 := by
      unfold reasonMapOf
      rw [processUninstall_append, processUninstall_append,
        processUninstall_cons_nonaccount _ _ _ _ hr]
      exact processUninstall_fst_ext _ post _ _ rfl
    rw [hfst]
  · show LogEntry.uninstallNotAccount (etypeOf r) (rowGet r "entity_id") ∈
      (reasonMapOf (normalizeAccountId dfInv) ia sv (pre ++ r :: post)).2
    unfold reasonMapOf
    rw [processUninstall_append,
      processUninstall_cons_nonaccount _ _ _ _ hr]
    exact processUninstall_logs_mem _ post _ _
      (List.mem_append_right _ (List.mem_singleton.2 rfl))

/-- Witness for C3: an uninstall job on an InventoryItem subject sitting
between two account-keyed uninstall candidates changes nothing in the
final table and is logged as a warning naming entity id 7. -/
theorem combine_uninstall_account_only_witness :
    (combine_removal_lists [] [] [] [] (w3Pre ++ w3Row :: w3Post)).final =
      (combine_removal_lists [] [] [] [] (w3Pre ++ w3Post)).final ∧
    LogEntry.uninstallNotAccount (etypeOf w3Row) (rowGet w3Row "entity_id") ∈
      (combine_removal_lists [] [] [] [] (w3Pre ++ w3Row :: w3Post)).logs :=
  combine_uninstall_account_only [] [] [] [] w3Pre w3Post w3Row (by decide)

/-- C4 counterexample: a response with no data key makes both flatteners
return an empty table successfully — neither raises a structural error. -/
theorem flatten_missing_data_returns_table :
    flatten_inventory_items_response ⟨none⟩ = [] ∧
    flatten_accounts_response ⟨none⟩ = [] :=
  ⟨rfl, rfl⟩

/-- C4 amended: on every response missing the data, inventory_items /
accounts, or entities key, the flatteners treat the entity list as empty
and return an empty table; no error is raised. -/
theorem flatten_missing_keys_empty_table :
    ∀ (ri : InvResponse) (ra : AccResponse),
      (invResponseMissingKeys ri → flatten_inventory_items_response ri = []) ∧
      (accResponseMissingKeys ra → flatten_accounts_response ra = []) := by
  intro ri ra
  constructor
  · intro h
    rcases h with h | ⟨d, hd, h⟩
    · simp [flatten_inventory_items_response, h]
    · rcases h with h | ⟨ii, hii, h⟩
      · simp [flatten_inventory_items_response, hd, h]
      · simp [flatten_inventory_items_response, hd, hii, h]
  · intro h
    rcases h with h | ⟨d, hd, h⟩
    · simp [flatten_accounts_response, h]
    · rcases h with h | ⟨aa, haa, h⟩
      · simp [flatten_accounts_response, hd, h]
      · simp [flatten_accounts_response, hd, haa, h]

/-- Witness for the amended C4: concrete responses missing the
inventory_items key and the entities key flatten to empty tables. -/
theorem flatten_missing_keys_empty_table_witness :
    flatten_inventory_items_response ⟨some ⟨none⟩⟩ = [] ∧
    flatten_accounts_response ⟨some ⟨some ⟨none⟩⟩⟩ = [] :=
  ⟨(flatten_missing_keys_empty_table ⟨some ⟨none⟩⟩ ⟨none⟩).1
      (Or.inr ⟨⟨none⟩, rfl, Or.inl rfl⟩),
   (flatten_missing_keys_empty_table ⟨none⟩ ⟨some ⟨some ⟨none⟩⟩⟩).2
      (Or.inr ⟨⟨some ⟨none⟩⟩, rfl, Or.inr ⟨⟨none⟩, rfl, rfl⟩⟩)⟩

/-- C5 counterexample: the accounts table has a row matching account id 1
whose Account_name is the empty string, the inline inventory snapshot says
Inventory Side, and the emitted name is the inline value — so the inline
value is used even though the accounts table has a matching row. -/
theorem combine_account_name_counterexample :
    (combine_removal_lists c5Inv c5Acc c5Ia [] []).final.map
        (fun fr => fr.acctName) = [Value.str "Inventory Side"] ∧
    accountRowsFor (normalizeAccountId c5Acc) (Value.str "1") =
      [[("Account_id", Value.str "1"), ("Account_name", Value.str "")]] ∧
    Value.str "Inventory Side" ≠ Value.str "" :=
  ⟨rfl, rfl, by decide⟩

/-- C5 amended: for a final row assembled from an existing inventory row,
the emitted Account_name is the accounts-table value whenever the
account-side lookup yields a truthy value (a matching row exists, the
column exists, and the stored name is neither missing nor empty), and the
inline inventory value otherwise — in particular whenever the accounts
table has no matching row. -/
theorem combine_account_name_resolution :
    ∀ (dfInv dfAcc ia sv un : Table) (fr : FinalRow) (inv : Row),
      fr ∈ (combine_removal_lists dfInv dfAcc ia sv un).final →
      firstRowWhere (normalizeAccountId dfInv) "InventoryItem_id" fr.invId =
        some inv →
      ((accFieldFor (normalizeAccountId dfAcc) (rowGet inv "Account_id")
          "Account_name").truthy = true →
        fr.acctName = accFieldFor (normalizeAccountId dfAcc)
          (rowGet inv "Account_id") "Account_name") ∧
      ((accFieldFor (normalizeAccountId dfAcc) (rowGet inv "Account_id")
          "Account_name").truthy = false →
        fr.acctName = rowGet inv "Account_name") := by
  intro dfInv dfAcc ia sv un fr inv hfr hinv
  have hmem : fr ∈ (reasonMapOf (normalizeAccountId dfInv) ia sv un).1.map
      (fun p => assembleRow (normalizeAccountId dfInv)
        (normalizeAccountId dfAcc) p.1 p.2) := hfr
  obtain ⟨p, hp, heq⟩ := List.mem_map.1 hmem
  have hiid : fr.invId = p.1 := by rw [← heq, assembleRow_invId]
  rw [hiid] at hinv
  constructor
  · intro ht
    rw [← heq]
    simp only [assembleRow, hinv]
    simp [pyOr, ht]
  · intro ht
    rw [← heq]
    simp only [assembleRow, hinv]
    simp [pyOr, ht]

/-- Witness for the amended C5: with a truthy accounts-side name the final
row carries it; with the empty accounts-side name the final row carries the
inline inventory name. -/
theorem combine_account_name_resolution_witness :
    w5FinalB.acctName = accFieldFor (normalizeAccountId c5AccB)
        (rowGet c5InvRowN "Account_id") "Account_name" ∧
    w5FinalA.acctName = rowGet c5InvRowN "Account_name" :=
  ⟨(combine_account_name_resolution c5Inv c5AccB c5Ia [] [] w5FinalB
      c5InvRowN
      (by rw [show (combine_removal_lists c5Inv c5AccB c5Ia [] []).final =
            [w5FinalB] from rfl]
          exact List.mem_singleton.2 rfl)
      rfl).1 rfl,
   (combine_account_name_resolution c5Inv c5Acc c5Ia [] [] w5FinalA
      c5InvRowN
      (by rw [show (combine_removal_lists c5Inv c5Acc c5Ia [] []).final =
            [w5FinalA] from rfl]
          exact List.mem_singleton.2 rfl)
      rfl).2 rfl⟩

/-- C9 counterexample: an inventory table whose Account_id cell holds the
integer 5 is observed retyped (to the string 5) after the call — the input
table is not left unchanged. -/
theorem combine_mutates_input_counterexample :
    (combine_removal_lists c9Table [] [] [] []).dfInventoryAfter ≠
      c9Table := by
  decide

/-- C9 amended: the only in-place effect of combine_removal_lists on its
input tables is the Account_id normalization (astype string plus strip);
row count and every other column are preserved, and the post-call tables
are exactly the normalized inputs. -/
theorem combine_normalizes_account_id_only :
    ∀ (dfInv dfAcc ia sv un : Table),
      (combine_removal_lists dfInv dfAcc ia sv un).dfInventoryAfter =
        normalizeAccountId dfInv ∧
      (combine_removal_lists dfInv dfAcc ia sv un).dfAccountsAfter =
        normalizeAccountId dfAcc ∧
      (∀ (t : Table) (i : Nat) (k : String), k ≠ "Account_id" →
        ((normalizeAccountId t)[i]?.map (fun r => rowGet r k)) =
          (t[i]?.map (fun r => rowGet r k))) ∧
      (∀ t : Table, (normalizeAccountId t).length = t.length) := by
  intro dfInv dfAcc ia sv un
  exact ⟨rfl, rfl, fun t i k hk => normalizeAccountId_getElem t i k hk,
    fun t => normalizeAccountId_length t⟩

/-- Witness for the amended C9 at the integer-id table. -/
theorem combine_normalizes_account_id_only_witness :
    (combine_removal_lists c9Table [] [] [] []).dfInventoryAfter =
      normalizeAccountId c9Table ∧
    ((normalizeAccountId c9Table)[0]?.map (fun r => rowGet r "MAC")) =
      (c9Table[0]?.map (fun r => rowGet r "MAC")) :=
  ⟨(combine_normalizes_account_id_only c9Table [] [] [] []).1,
   (combine_normalizes_account_id_only c9Table [] [] [] []).2.2.1 c9Table 0
     "MAC" (by decide)⟩

/-- C6. The serviceable-address classifier evaluates its precedence per
address, first match wins: no histories gives NULL histories; else a null
account relation in any history gives Any account missing; else a
non-Active account status name in any history gives Has inactive account;
else the address is skipped — and the filter emits at most one candidate
per address, each carrying exactly one reason. -/
theorem classifyAddress_precedence :
    ∀ (a : SAAddress),
      (a.histories = [] →
        classifyAddress a = some ⟨a.id, a.type,
          joinedInventoryIds a.inventory_items, "NULL histories"⟩) ∧
      (a.histories ≠ [] →
        (∃ h ∈ a.histories, h.account = none) →
        classifyAddress a = some ⟨a.id, a.type,
          joinedInventoryIds a.inventory_items, "Any account missing"⟩) ∧
      (a.histories ≠ [] →
        (∀ h ∈ a.histories, h.account ≠ none) →
        (∃ h ∈ a.histories, ∃ acc, h.account = some acc ∧
          acc.statusName ≠ Value.str "Active") →
        classifyAddress a = some ⟨a.id, a.type,
          joinedInventoryIds a.inventory_items, "Has inactive account"⟩) ∧
      (a.histories ≠ [] →
        (∀ h ∈ a.histories, h.account = some ⟨Value.str "Active"⟩) →
        classifyAddress a = none) ∧
      (∀ d : SAResponse,
        (filterServicableAddressesWithoutActiveAccounts d).length ≤
          d.addresses.length) := by
  intro a
  refine ⟨?_, ?_, ?_, ?_, ?_⟩
  · intro h
    simp [classifyAddress, h]
  · intro hne hex
    have h1 : a.histories.isEmpty = false := by
      cases hh : a.histories with
      | nil => exact absurd hh hne
      | cons x xs => rfl
    have h2 : a.histories.any (fun h => h.account.isNone) = true := by
      rw [List.any_eq_true]
      obtain ⟨h, hm, hn⟩ := hex
      exact ⟨h, hm, by simp [hn]⟩
    simp [classifyAddress, h1, h2]
  · intro hne hall hex
    have h1 : a.histories.isEmpty = false := by
      cases hh : a.histories with
      | nil => exact absurd hh hne
      | cons x xs => rfl
    have h2 : a.histories.any (fun h => h.account.isNone) = false := by
      rw [List.any_eq_false]
      intro h hm hc
      exact hall h hm (Option.isNone_iff_eq_none.1 hc)
    have h3 : (a.histories.any (fun h =>
        match h.account with
        | some acc => acc.statusName != Value.str "Active"
        | none => true)) = true := by
      rw [List.any_eq_true]
      obtain ⟨h, hm, acc, hacc, hst⟩ := hex
      refine ⟨h, hm, ?_⟩
      rw [hacc]
      simp [bne_iff_ne, hst]
    simp [classifyAddress, h1, h2, h3]
  · intro hne hall
    have h1 : a.histories.isEmpty = false := by
      cases hh : a.histories with
      | nil => exact absurd hh hne
      | cons x xs => rfl
    have h2 : a.histories.any (fun h => h.account.isNone) = false := by
      rw [List.any_eq_false]
      intro h hm hc
      rw [hall h hm] at hc
      simp at hc
    have h3 : (a.histories.any (fun h =>
        match h.account with
        | some acc => acc.statusName != Value.str "Active"
        | none => true)) = false := by
      rw [List.any_eq_false]
      intro h hm
      rw [hall h hm]
      simp
    simp [classifyAddress, h1, h2, h3]
  · intro d
    exact List.length_filterMap_le _ _

/-- Witness for C6: an address with one inactive-account history is
classified Has inactive account, and one with no histories is classified
NULL histories. -/
theorem classifyAddress_precedence_witness :
    classifyAddress w6Addr = some ⟨Value.int 1, Value.str "PHYSICAL", "i9",
      "Has inactive account"⟩ ∧
    classifyAddress w10Addr = some ⟨Value.int 9, Value.str "PHYSICAL",
      "None", "NULL histories"⟩ :=
  ⟨(classifyAddress_precedence w6Addr).2.2.1 (by decide) (by decide)
      ⟨⟨some ⟨Value.str "Inactive"⟩⟩, by decide,
        ⟨⟨Value.str "Inactive"⟩, rfl, by decide⟩⟩,
   (classifyAddress_precedence w10Addr).1 rfl⟩

theorem historySlot_eq_reverse (hs : List HistRec) (i : Nat) (hi : i < 3) :
    historySlot hs i = hs.reverse[i]? := by
  unfold historySlot lastThreeHistories
  rw [List.reverse_drop]
  by_cases hlen : hs.length ≤ 3
  · have h1 : hs.length - (hs.length - 3) = hs.length := by omega
    rw [h1]
    rw [show hs.length = hs.reverse.length from (List.length_reverse hs).symm,
      List.take_length]
  · have h1 : hs.length - (hs.length - 3) = 3 := by omega
    rw [h1, List.getElem?_take]
    simp [hi]

theorem slotValues_spec (a : AccountEntity) (i : Nat) (hi : i < 3) :
    assignmentSlotValues (flattenAccount a) i =
      histFieldValues (historySlot
        a.serviceable_address_account_assignment_histories i) := by
  have key : ∀ (hs : List HistRec) (j : Nat),
      ([histSlotVal hs j (fun h => h.created_at),
        histSlotVal hs j (fun h => h.end_date),
        histSlotVal hs j (fun h => h.id),
        histSlotVal hs j (fun h => h.account_id),
        histSlotVal hs j (fun h => h.address_id)] : List Value) =
      histFieldValues (historySlot hs j) := by
    intro hs j
    cases hsl : historySlot hs j <;> simp [histSlotVal, hsl, histFieldValues]
  interval_cases i
  · exact key _ 0
  · exact key _ 1
  · exact key _ 2

/-- C7. flatten_accounts_response fills slot i+1 (for i < 3) with the
entry of the reversed history sequence at position i — the trailing three
histories, latest first; with fewer histories the remaining slots are
null, and with none every slot field is null. -/
theorem flatten_accounts_assignment_slots :
    ∀ (a : AccountEntity) (i : Nat), i < 3 →
      assignmentSlotValues (flattenAccount a) i =
        histFieldValues
          (a.serviceable_address_account_assignment_histories.reverse[i]?) ∧
      (a.serviceable_address_account_assignment_histories = [] →
        assignmentSlotValues (flattenAccount a) i =
          [.null, .null, .null, .null, .null]) ∧
      (a.serviceable_address_account_assignment_histories.length ≤ i →
        assignmentSlotValues (flattenAccount a) i =
          [.null, .null, .null, .null, .null]) := by
  intro a i hi
  have hmain : assignmentSlotValues (flattenAccount a) i =
      histFieldValues
        (a.serviceable_address_account_assignment_histories.reverse[i]?) := by
    rw [slotValues_spec a i hi, historySlot_eq_reverse _ i hi]
  refine ⟨hmain, ?_, ?_⟩
  · intro h
    rw [hmain, h]
    rfl
  · intro h
    rw [hmain, List.getElem?_eq_none (by simpa using h)]
    rfl

/-- Witness for C7: the latest of two histories fills slot 1, and with no
histories slot 2 is null. -/
theorem flatten_accounts_assignment_slots_witness :
    assignmentSlotValues (flattenAccount w7Acct) 0 =
      histFieldValues
        (w7Acct.serviceable_address_account_assignment_histories.reverse[0]?) ∧
    assignmentSlotValues (flattenAccount w7AcctEmpty) 1 =
      [.null, .null, .null, .null, .null] :=
  ⟨(flatten_accounts_assignment_slots w7Acct 0 (by decide)).1,
   (flatten_accounts_assignment_slots w7AcctEmpty 1 (by decide)).2.1 rfl⟩

theorem topPairs_keys (it : InvEntity) :
    (topPairs it).map Prod.fst = invTopKeys := rfl

theorem addressPairs_keys (a : AddressObj) :
    (addressPairs a).map Prod.fst = addressKeys := rfl

theorem accountPairs_keys (acc : AccountObj) :
    (accountPairs acc).map Prod.fst = accountKeys := rfl

theorem deploymentPairs_keys (d : DeploymentTypeObj) :
    (deploymentPairs d).map Prod.fst = deploymentKeys := rfl

theorem modelPairs_keys (m : InventoryModelObj) :
    (modelPairs m).map Prod.fst = modelKeys := rfl

theorem fieldDataPairs_keys (fd : FieldDataEntry) :
    (fieldDataPairs fd).map Prod.fst = fieldDataKeys := rfl

theorem ipPairs_keys (ip : IpAssignmentObj) :
    (ipPairs ip).map Prod.fst = ipKeys := rfl

/-- C8. Every flattened inventory row carries the same fixed column set in
the same order, whatever combination of optional branches was populated,
and an item with every optional nested object absent yields exactly the
top-level fields followed by nulls for every optional column — the
function is total, so no exception can arise. -/
theorem flatten_inventory_fixed_schema :
    ∀ it : InvEntity,
      ((flattenInvItem it).map Prod.fst = invColumns) ∧
      (it.inventoryitemable = none → it.deployment_type = none →
        it.inventory_model = none → it.inventory_model_field_data = [] →
        flattenInvItem it = topPairs it ++ nullRow invOptionalKeys) := by
  intro it
  constructor
  · unfold flattenInvItem
    cases hoa : it.inventoryitemable with
    | none =>
      cases hod : it.deployment_type <;> cases hom : it.inventory_model <;>
        (cases hfd : it.inventory_model_field_data with
         | nil =>
           simp [List.map_append, topPairs_keys, deploymentPairs_keys,
             modelPairs_keys, nullRow_keys, invColumns, invOptionalKeys,
             List.append_assoc]
         | cons fd rest =>
           cases hip : fd.ip_assignments <;>
             simp [hip, List.map_append, topPairs_keys, deploymentPairs_keys,
               modelPairs_keys, fieldDataPairs_keys, ipPairs_keys,
               nullRow_keys, invColumns, invOptionalKeys, List.append_assoc])
    | some a =>
      cases haddr : a.addressable <;> cases hod : it.deployment_type <;>
        cases hom : it.inventory_model <;>
        (cases hfd : it.inventory_model_field_data with
         | nil =>
           simp [haddr, List.map_append, topPairs_keys, addressPairs_keys,
             accountPairs_keys, deploymentPairs_keys, modelPairs_keys,
             nullRow_keys, invColumns, invOptionalKeys, List.append_assoc]
         | cons fd rest =>
           cases hip : fd.ip_assignments <;>
             simp [haddr, hip, List.map_append, topPairs_keys,
               addressPairs_keys, accountPairs_keys, deploymentPairs_keys,
               modelPairs_keys, fieldDataPairs_keys, ipPairs_keys,
               nullRow_keys, invColumns, invOptionalKeys,
               List.append_assoc])
  · intro h1 h2 h3 h4
    unfold flattenInvItem
    rw [h1, h2, h3, h4]
    simp [invOptionalKeys, nullRow_append, List.append_assoc]

/-- Witness for C8: the all-absent inventory entity flattens to the
top-level fields followed by nulls for every optional column, with the
full fixed column list. -/
theorem flatten_inventory_fixed_schema_witness :
    flattenInvItem w8Item = topPairs w8Item ++ nullRow invOptionalKeys ∧
    (flattenInvItem w8Item).map Prod.fst = invColumns :=
  ⟨(flatten_inventory_fixed_schema w8Item).2 rfl rfl rfl rfl,
   (flatten_inventory_fixed_schema w8Item).1⟩

/-- C10. A classified address with no directly-attached inventory items
carries the literal string None in inventory_ids; the expansion step then
parses it as the single inventory id None, and as long as no inventory row
carries the id None the final table gains one fallback row whose
InventoryItem_id is the string None, all detail fields null, under that
address's reason. -/
theorem serviceable_none_string_fallback_row :
    ∀ (dfInv dfAcc : Table) (a : SAAddress) (c : SACandidate),
      a.inventory_items = [] →
      classifyAddress a = some c →
      (∀ r ∈ dfInv, rowGet r "InventoryItem_id" ≠ Value.str "None") →
      c.inventory_ids = "None" ∧
      expand_servicable_row_to_ids (candidateToRow c) = ["None"] ∧
      (combine_removal_lists dfInv dfAcc [] [candidateToRow c] []).final =
        [{ invId := Value.str "None", invModel := .null, mac := .null,
           ip := .null, addrId := .null, addrLine1 := .null,
           reasonStr := c.reason, acctId := .null, acctName := .null,
           acctStatus := .null, acctEmail := .null, acctPhone := .null,
           endDate := .null }] := by
  intro dfInv dfAcc a c hitems hc hno
  have hj : joinedInventoryIds a.inventory_items = "None" := by
    rw [hitems]
    rfl
  have hids : c.inventory_ids = "None" := by
    unfold classifyAddress at hc
    split at hc
    · simp only [Option.some.injEq] at hc
      rw [← hc]
      exact hj
    · split at hc
      · simp only [Option.some.injEq] at hc
        rw [← hc]
        exact hj
      · split at hc
        · simp only [Option.some.injEq] at hc
          rw [← hc]
          exact hj
        · cases hc
  obtain ⟨cid, ctype, cinv, creas⟩ := c
  simp only at hids
  subst hids
  refine ⟨rfl, rfl, ?_⟩
  have hmap : (reasonMapOf (normalizeAccountId dfInv) []
      [candidateToRow ⟨cid, ctype, "None", creas⟩] []).1 =
      [(Value.str "None", [creas])] := rfl
  have hfw : firstRowWhere (normalizeAccountId dfInv) "InventoryItem_id"
      (Value.str "None") = none := by
    unfold firstRowWhere
    have hfil : (normalizeAccountId dfInv).filter
        (fun r => rowGet r "InventoryItem_id" == Value.str "None") = [] := by
      rw [List.filter_eq_nil_iff]
      intro r hr
      obtain ⟨r₀, hr₀, hkeep⟩ := normalizeAccountId_mem dfInv r hr
      have hne := hno r₀ hr₀
      rw [hkeep "InventoryItem_id" (by decide)]
      simpa [beq_iff_eq] using hne
    rw [hfil]
    rfl
  show ((reasonMapOf (normalizeAccountId dfInv) []
      [candidateToRow ⟨cid, ctype, "None", creas⟩] []).1.map
        (fun p => assembleRow (normalizeAccountId dfInv)
          (normalizeAccountId dfAcc) p.1 p.2)) = _
  rw [hmap]
  simp only [List.map_cons, List.map_nil, assembleRow, hfw]
  rw [show joinReasons [creas] = creas from rfl]

/-- Witness for C10: the empty-inventory PHYSICAL address with no
histories produces the candidate with inventory_ids None, and the combined
run over empty base tables yields exactly the fallback row keyed by the
string None. -/
theorem serviceable_none_string_fallback_row_witness :
    w10Cand.inventory_ids = "None" ∧
    expand_servicable_row_to_ids (candidateToRow w10Cand) = ["None"] ∧
    (combine_removal_lists [] [] [] [candidateToRow w10Cand] []).final =
      [{ invId := Value.str "None", invModel := .null, mac := .null,
         ip := .null, addrId := .null, addrLine1 := .null,
         reasonStr := w10Cand.reason, acctId := .null, acctName := .null,
         acctStatus := .null, acctEmail := .null, acctPhone := .null,
         endDate := .null }] :=
  serviceable_none_string_fallback_row [] [] w10Addr w10Cand rfl rfl
    (by simp)

end SonarRemovals
